import Mathlib

/-!
Verification of the answer-validation, fuzzy-matching and round/session
subsystem of the Simpsons quote quiz (`game.js`).

Strings are modelled as `List Char`; JS numbers holding integers as `Int`
(or `Nat` for counters); the float results of `similarity` as `ℚ`
(all arithmetic performed there is exact on the values involved).
-/

/-- The whitespace class of JS regex `\s` and of `String.prototype.trim`. -/
def isJsWs (c : Char) : Bool :=
  c.toNat = 32 || c.toNat = 9 || c.toNat = 10 || c.toNat = 11 || c.toNat = 12 ||
  c.toNat = 13 || c.toNat = 0xa0 || c.toNat = 0x1680 ||
  (0x2000 ≤ c.toNat && c.toNat ≤ 0x200a) || c.toNat = 0x2028 || c.toNat = 0x2029 ||
  c.toNat = 0x202f || c.toNat = 0x205f || c.toNat = 0x3000 || c.toNat = 0xfeff

/-- `a`-`z`, as matched by `[^a-z0-9\s]`'s complement. -/
def isLowerAZ (c : Char) : Bool := 97 ≤ c.toNat && c.toNat ≤ 122

/-- `0`-`9`. -/
def isDigit09 (c : Char) : Bool := 48 ≤ c.toNat && c.toNat ≤ 57

/-- Characters kept by `.replace(/[^a-z0-9\s]/g, '')`. -/
def isKept (c : Char) : Bool := isLowerAZ c || isDigit09 c || isJsWs c

/-- `String.prototype.toLowerCase`, modelled characterwise on the ASCII
range; code points whose case mapping is outside this model are removed by
the following strip stage anyway. -/
def jsToLower (c : Char) : Char :=
  if 65 ≤ c.toNat && c.toNat ≤ 90 then Char.ofNat (c.toNat + 32) else c

/-- `.replace(/['']/g, "'")`: in the source bytes the class holds the
straight apostrophe (code point 39, twice), so this replace maps the
apostrophe to itself; the next strip stage removes it either way. -/
def mapSingleQuotes (c : Char) : Char :=
  if c.toNat = 39 || c.toNat = 39 then Char.ofNat 39 else c

/-- `.replace(/[""]/g, '"')`: in the source bytes the class holds the
straight double quote (code point 34, twice), so this replace maps the
double quote to itself; the next strip stage removes it either way. -/
def mapDoubleQuotes (c : Char) : Char :=
  if c.toNat = 34 || c.toNat = 34 then Char.ofNat 34 else c

/-- `.replace(/\s+/g, ' ')`: every maximal run of whitespace becomes one
space.  Structured on adjacent pairs: a whitespace character followed by
more whitespace is dropped, the last one of a run becomes `' '`. -/
def collapseWs : List Char → List Char
  | [] => []
  | [c] => if isJsWs c then [' '] else [c]
  | c :: d :: rest =>
    if isJsWs c then
      if isJsWs d then collapseWs (d :: rest)
      else ' ' :: collapseWs (d :: rest)
    else c :: collapseWs (d :: rest)

/-- `String.prototype.trim`. -/
def jsTrim (l : List Char) : List Char :=
  ((l.dropWhile isJsWs).reverse.dropWhile isJsWs).reverse

/-- `normalizeString` from game.js: lowercase, canonicalize curly quotes,
strip everything but `a-z`, `0-9` and whitespace, collapse whitespace runs,
trim. -/
def normalizeString (s : List Char) : List Char :=
  jsTrim (collapseWs
    ((((s.map jsToLower).map mapSingleQuotes).map mapDoubleQuotes).filter isKept))

/-- The dynamic-programming table of `levenshteinDistance(a, b)` from game.js,
`levMatF a b fuel i j` being `matrix[i][j]` (row index `i` ranges over `b`,
column index `j` over `a`, exactly as in the source).  The extra `fuel`
argument only makes the recursion structural; it is irrelevant as soon as
`i + j ≤ fuel` (`levMatF_fuel_irrel`). -/
def levMatF (a b : List Char) : Nat → Nat → Nat → Nat
  | _, 0, j => j
  | _, i + 1, 0 => i + 1
  | 0, _ + 1, _ + 1 => 0
  | fuel + 1, i + 1, j + 1 =>
    if b.getD i ' ' = a.getD j ' ' then levMatF a b fuel i j
    else
      min (levMatF a b fuel i j + 1)
        (min (levMatF a b fuel (i + 1) j + 1) (levMatF a b fuel i (j + 1) + 1))

/-- `matrix[i][j]` of the table built by `levenshteinDistance(a, b)`:
entry `(i, j)` compares `b.charAt(i-1)` with `a.charAt(j-1)` (all accesses
made from in-range top-level indices stay in range, so the `getD` default is
never consulted there). -/
def levMat (a b : List Char) (i j : Nat) : Nat := levMatF a b (i + j) i j

/-- `levenshteinDistance(a, b)` from game.js: `matrix[b.length][a.length]`. -/
def levenshteinDistance (a b : List Char) : Nat := levMat a b b.length a.length

/-- Modelled from the spec: the classic Levenshtein edit distance with
unit-cost substitution, insertion and deletion, written as the textbook
recursion on the two strings.  Used to state that the table computed by
`levenshteinDistance` really is the Levenshtein distance. -/
def levenshteinSpec : List Char → List Char → Nat
  | [], ys => ys.length
  | x :: xs, [] => (x :: xs).length
  | x :: xs, y :: ys =>
    if x = y then levenshteinSpec xs ys
    else
      1 + min (levenshteinSpec xs ys)
          (min (levenshteinSpec (x :: xs) ys) (levenshteinSpec xs (y :: ys)))
termination_by xs ys => xs.length + ys.length

/-- `similarity(a, b)` from game.js. -/
def similarity (a b : List Char) : ℚ :=
  let normA := normalizeString a
  let normB := normalizeString b
  if normA = normB then 1
  else
    let maxLen := max normA.length normB.length
    if maxLen = 0 then 1
    else 1 - (levenshteinDistance normA normB : ℚ) / (maxLen : ℚ)

/-! ## Configuration (the CONFIG object) -/

def startingPoints : Int := 100

/-- The hint kinds: `'image'`, `'season'`, `'episodeNumber'`. -/
inductive HintType where
  | image
  | season
  | episodeNumber
deriving DecidableEq, Repr

/-- `CONFIG.hintCosts`. -/
def hintCost : HintType → Int
  | .image => 30
  | .season => 20
  | .episodeNumber => 40

/-- `CONFIG.bonusPoints.season`. -/
def seasonBonusPoints : Int := 25

/-- `CONFIG.bonusPoints.episode`. -/
def episodeBonusPoints : Int := 50

/-- `CONFIG.minQuoteWords`. -/
def minQuoteWords : Nat := 5

/-- `CONFIG.similarityThreshold`. -/
def similarityThreshold : ℚ := 0.75

/-! ## Scenes and the validator -/

/-- The fields of a Frinkiac scene that the game core reads:
`Episode.Season`, `Episode.EpisodeNumber`, `Episode.Title` and the
`Subtitles` contents. -/
structure Scene where
  season : Int
  episodeNumber : Int
  title : List Char
  subtitles : List (List Char)
deriving DecidableEq, Repr

/-- `state.seasonRange`. -/
structure SeasonRange where
  min : Int
  max : Int
deriving DecidableEq, Repr

/-- `getQuoteText(scene)`: the empty string for missing/empty subtitles,
else the subtitle contents joined by single spaces. -/
def getQuoteText (scene : Scene) : List Char :=
  if scene.subtitles.isEmpty then [] else List.intercalate [' '] scene.subtitles

/-- The word count taken by `isValidQuote`:
`quote.trim().split(/\s+/).length`.  On the trimmed string the split pieces
are exactly the maximal runs of non-whitespace characters, except that
splitting the empty string yields `[""]`, of length 1. -/
def countRuns : List Char → Bool → Nat
  | [], _ => 0
  | c :: rest, inWord =>
    if isJsWs c then countRuns rest false
    else (if inWord then 0 else 1) + countRuns rest true

/-- `quote.trim().split(/\s+/).length`. -/
def wordCount (quote : List Char) : Nat :=
  let t := jsTrim quote
  if t = [] then 1 else countRuns t false

/-- Total length of the matches of `/\[[^\]]+\]/g` (the `bracketedContent`
scan of `isValidQuote`), as a left-to-right automaton: `some k` means a
candidate match is open, `k` counting its `[` plus the non-`]` characters
seen so far; a `]` closes it as a match of length `k + 1` when the span is
nonempty (`2 ≤ k`), and aborts the candidate otherwise, exactly as the
regex engine resumes after a failed `[`. -/
def bracketScan : List Char → Option Nat → Nat
  | [], _ => 0
  | c :: rest, none =>
    if c = '[' then bracketScan rest (some 1) else bracketScan rest none
  | c :: rest, some k =>
    if c = ']' then
      if 2 ≤ k then (k + 1) + bracketScan rest none
      else bracketScan rest none
    else bracketScan rest (some (k + 1))

/-- `bracketedContent.join('').length` (0 when `match` returns null). -/
def bracketedLength (quote : List Char) : Nat := bracketScan quote none

/-- Whether the trimmed quote starts with `[`. -/
def startsWithLBracket : List Char → Bool
  | c :: _ => c = '['
  | [] => false

/-- `isValidQuote(scene)` from game.js, with the season range it reads from
`state.seasonRange` passed explicitly.  The bracket test
`bracketedLength > quote.length * 0.5` is written with exact integers as
`2 * bracketedLength > quote.length`. -/
def isValidQuote (range : SeasonRange) (scene : Scene) : Bool :=
  if scene.season < range.min ∨ scene.season > range.max then false
  else
    let quote := getQuoteText scene
    if quote = [] then false
    else if wordCount quote < minQuoteWords then false
    else if startsWithLBracket (jsTrim quote) then false
    else if 0 < bracketedLength quote then
      if 2 * bracketedLength quote > quote.length then false else true
    else true

/-! ## The acquisition loop -/

/-- `maxAttempts` in `getValidScene`. -/
def maxAttempts : Nat := 50

/-- The `while (attempts < maxAttempts)` loop of `getValidScene`, with
`remaining = maxAttempts - attempts` counting down and `attempts` counting
up; `fetch n` is the result of the `n`-th `fetchRandomScene()` call.
Returns the accepted scene (`none` modelling the thrown
`Could not find valid scene` error) together with the number of fetches the
call performs. -/
def getValidSceneAux (range : SeasonRange) (fetch : Nat → Scene) :
    Nat → Nat → Option Scene × Nat
  | 0, _ => (none, 0)
  | remaining + 1, attempts =>
    let scene := fetch attempts
    if isValidQuote range scene then (some scene, 1)
    else
      let rest := getValidSceneAux range fetch remaining (attempts + 1)
      (rest.1, rest.2 + 1)

/-- `getValidScene()` from game.js. -/
def getValidScene (range : SeasonRange) (fetch : Nat → Scene) :
    Option Scene × Nat :=
  getValidSceneAux range fetch maxAttempts 0

/-! ## parseInt and the season range -/

/-- Digit value of `c` in the given radix (10 or 16), as `parseInt`
accepts. -/
def digitVal (base : Nat) (c : Char) : Option Nat :=
  if 48 ≤ c.toNat ∧ c.toNat ≤ 57 then some (c.toNat - 48)
  else if base = 16 ∧ 97 ≤ c.toNat ∧ c.toNat ≤ 102 then some (c.toNat - 87)
  else if base = 16 ∧ 65 ≤ c.toNat ∧ c.toNat ≤ 70 then some (c.toNat - 55)
  else none

/-- `parseInt(str)` with no radix argument: skip leading whitespace, an
optional sign, a `0x`/`0X` prefix selecting radix 16 (radix 10 otherwise),
then the longest run of radix digits; `none` models `NaN` (no digits). -/
def jsParseInt (s : List Char) : Option Int :=
  let t := s.dropWhile isJsWs
  let sign : Int := match t with
    | '-' :: _ => -1
    | _ => 1
  let rest₀ : List Char := match t with
    | '-' :: r => r
    | '+' :: r => r
    | r => r
  let base : Nat := match rest₀ with
    | '0' :: 'x' :: _ => 16
    | '0' :: 'X' :: _ => 16
    | _ => 10
  let rest : List Char := match rest₀ with
    | '0' :: 'x' :: r => r
    | '0' :: 'X' :: r => r
    | r => r
  let ds := rest.takeWhile fun c => (digitVal base c).isSome
  if ds = [] then none
  else some (sign * (ds.foldl (fun acc c => acc * base + ((digitVal base c).getD 0 : Int)) 0))

/-- JS `v || d` for the result of `parseInt`: the fallback is taken when the
parse produced `NaN` (`none`) or `0`, both falsy. -/
def jsOrElse (v : Option Int) (d : Int) : Int :=
  match v with
  | some n => if n = 0 then d else n
  | none => d

/-- `getSeasonRange()` from game.js, with the two input field values passed
explicitly. -/
def getSeasonRange (minInput maxInput : List Char) : SeasonRange :=
  let mn := jsOrElse (jsParseInt minInput) 1
  let mx := jsOrElse (jsParseInt maxInput) 9
  { min := max 1 (min mn mx), max := min 20 (max mn mx) }

/-! ## Round and session state -/

/-- The mutable game state of game.js (the DOM fields aside). -/
structure GameState where
  scene : Scene
  roundPoints : Int
  totalPoints : Int
  roundsPlayed : Nat
  revealed : List HintType
  guessed : Bool
  won : Bool
  seasonRange : SeasonRange
deriving DecidableEq, Repr

/-- `checkAnswer(guess)`, with the title it reads from
`state.scene.Episode.Title` passed explicitly. -/
structure CheckResult where
  correct : Bool
  similarityScore : ℚ
deriving DecidableEq, Repr

/-- `checkAnswer(guess)` from game.js. -/
def checkAnswer (title guess : List Char) : CheckResult :=
  let sim := similarity guess title
  { correct := similarityThreshold ≤ sim, similarityScore := sim }

/-- `revealHint(hintType)` from game.js (the `render()` call is display
only). -/
def revealHint (st : GameState) (kind : HintType) : GameState :=
  if kind ∈ st.revealed ∨ st.guessed then st
  else
    { st with
      roundPoints := max 0 (st.roundPoints - hintCost kind)
      revealed := kind :: st.revealed }

/-- The strings pushed onto `bonusText` in `submitGuess`, by tag. -/
inductive BonusNote where
  | seasonCorrect (bonus : Int)
  | seasonMiss (guessed actual : Int)
  | episodeCorrect (bonus : Int)
  | episodeMiss (guessed actual : Int)
deriving DecidableEq, Repr

/-- What `showResult` displays (only the fields backed by game state; the
session average is `totalPoints / roundsPlayed` as in the source). -/
structure ResultView where
  correct : Bool
  bonusNotes : List BonusNote
  roundScore : Int
  sessionTotal : Int
  sessionRounds : Nat
  sessionAvg : ℚ
deriving DecidableEq, Repr

/-- `submitGuess()` from game.js, with the three input field values passed
explicitly (`guessInput`, `guessSeason`, `guessEpisode`).  Returns the new
state and, when the guess is processed, the `showResult` view; `none` on
the two early returns. -/
def submitGuess (st : GameState) (guessInput seasonInput episodeInput : List Char) :
    GameState × Option ResultView :=
  if st.guessed then (st, none)
  else
    let guess := jsTrim guessInput
    if guess = [] then (st, none)
    else
      let result := checkAnswer st.scene.title guess
      let guessedSeason := jsParseInt seasonInput
      let guessedEpisode := jsParseInt episodeInput
      let actualSeason := st.scene.season
      let actualEpisode := st.scene.episodeNumber
      let seasonPart : Int × List BonusNote :=
        match guessedSeason with
        | some n =>
          if n ≠ 0 ∧ n = actualSeason then
            (seasonBonusPoints, [BonusNote.seasonCorrect seasonBonusPoints])
          else if n ≠ 0 then (0, [BonusNote.seasonMiss n actualSeason])
          else (0, [])
        | none => (0, [])
      let episodePart : Int × List BonusNote :=
        match guessedEpisode with
        | some n =>
          if n ≠ 0 ∧ n = actualEpisode then
            (episodeBonusPoints, [BonusNote.episodeCorrect episodeBonusPoints])
          else if n ≠ 0 then (0, [BonusNote.episodeMiss n actualEpisode])
          else (0, [])
        | none => (0, [])
      let bonusPoints := seasonPart.1 + episodePart.1
      let bonusText := seasonPart.2 ++ episodePart.2
      let newRoundPoints := (if result.correct then st.roundPoints else 0) + bonusPoints
      let newTotal := st.totalPoints + newRoundPoints
      let newRounds := st.roundsPlayed + 1
      ({ st with
          guessed := true
          won := result.correct
          roundPoints := newRoundPoints
          totalPoints := newTotal
          roundsPlayed := newRounds },
        some
          { correct := result.correct
            bonusNotes := bonusText
            roundScore := newRoundPoints
            sessionTotal := newTotal
            sessionRounds := newRounds
            sessionAvg := (newTotal : ℚ) / (newRounds : ℚ) })

/-- The test `submitGuess` applies to decide that a structured guess is
supplied and matches: the parsed value is truthy (not `NaN`, not `0`) and
equals the actual value. -/
def structuredHit (g : Option Int) (actual : Int) : Bool :=
  match g with
  | some n => n ≠ 0 ∧ n = actual
  | none => false

/-- No two adjacent whitespace characters: the shape `collapseWs` leaves a
string in. -/
def wsSep (c d : Char) : Prop := ¬(isJsWs c = true ∧ isJsWs d = true)

/-! ## Concrete fixtures for witness checks -/

/-- A concrete scene: season 3, episode 7, title "abcd", quote "a b c d e". -/
def exScene : Scene :=
  { season := 3, episodeNumber := 7, title := ['a', 'b', 'c', 'd'],
    subtitles := [['a'], ['b'], ['c'], ['d'], ['e']] }

/-- A concrete season range 1..9 (the default of game.js). -/
def exRange : SeasonRange := { min := 1, max := 9 }

/-- A scene whose quote satisfies every content rule but whose season 0 is
out of range. -/
def exSceneBad : Scene :=
  { season := 0, episodeNumber := 1, title := [],
    subtitles := [['a'], ['b'], ['c'], ['d'], ['e']] }

/-- A scene accepted by the validator for `exRange`. -/
def exSceneGood : Scene :=
  { season := 3, episodeNumber := 1, title := [],
    subtitles := [['a'], ['b'], ['c'], ['d'], ['e']] }

/-- A fresh round on `exScene` with 40 points left. -/
def exState2 : GameState :=
  { scene := exScene, roundPoints := 40, totalPoints := 0, roundsPlayed := 0,
    revealed := [], guessed := false, won := false, seasonRange := exRange }

/-- A fresh round on `exScene` with the full 100 starting points. -/
def exState4 : GameState :=
  { scene := exScene, roundPoints := startingPoints, totalPoints := 0, roundsPlayed := 0,
    revealed := [], guessed := false, won := false, seasonRange := exRange }

/-- `exState4` after revealing the season hint and then the image hint. -/
def exState4' : GameState :=
  revealHint (revealHint exState4 HintType.season) HintType.image

/-- A fresh round used for the session-average check. -/
def exState9 : GameState :=
  { scene := exScene, roundPoints := 100, totalPoints := 0, roundsPlayed := 0,
    revealed := [], guessed := false, won := false, seasonRange := exRange }

/-- A fresh round used for the falsy-structured-guess check. -/
def exState10 : GameState :=
  { scene := exScene, roundPoints := 100, totalPoints := 0, roundsPlayed := 0,
    revealed := [], guessed := false, won := false, seasonRange := exRange }

/-! ## Lemmas about the Levenshtein table -/

theorem levMatF_fuel_irrel (a b : List Char) :
    ∀ f f' i j, i + j ≤ f → i + j ≤ f' → levMatF a b f i j = levMatF a b f' i j := by
  intro f
  induction f with
  | zero =>
    intro f' i j h _
    match i, j with
    | 0, j => simp [levMatF]
    | i + 1, j => omega
  | succ f ih =>
    intro f' i j h h'
    match i, j with
    | 0, j => simp [levMatF]
    | i + 1, 0 => simp [levMatF]
    | i + 1, j + 1 =>
      match f', h' with
      | f' + 1, h' =>
        simp only [levMatF]
        rw [ih f' i j (by omega) (by omega), ih f' (i + 1) j (by omega) (by omega),
          ih f' i (j + 1) (by omega) (by omega)]

theorem levMat_zero_left (a b : List Char) (j : Nat) : levMat a b 0 j = j := by
  simp [levMat, levMatF]

theorem levMat_succ_zero (a b : List Char) (i : Nat) : levMat a b (i + 1) 0 = i + 1 := by
  simp [levMat, levMatF]

theorem levMat_succ_succ (a b : List Char) (i j : Nat) :
    levMat a b (i + 1) (j + 1) =
      if b.getD i ' ' = a.getD j ' ' then levMat a b i j
      else
        min (levMat a b i j + 1)
          (min (levMat a b (i + 1) j + 1) (levMat a b i (j + 1) + 1)) := by
  simp only [levMat, levMatF, Nat.add_eq]
  rw [levMatF_fuel_irrel a b (i + 1 + j) (i + j) i j (by omega) (by omega),
    levMatF_fuel_irrel a b (i + 1 + j) (i + (j + 1)) i (j + 1) (by omega) (by omega)]

/-! ## Lemmas about the textbook recursion -/

theorem levenshteinSpec_nil_left (ys : List Char) : levenshteinSpec [] ys = ys.length := by
  simp [levenshteinSpec]

theorem levenshteinSpec_nil_right (xs : List Char) : levenshteinSpec xs [] = xs.length := by
  cases xs <;> simp [levenshteinSpec]

theorem levenshteinSpec_cons_cons (x y : Char) (xs ys : List Char) :
    levenshteinSpec (x :: xs) (y :: ys) =
      if x = y then levenshteinSpec xs ys
      else
        1 + min (levenshteinSpec xs ys)
            (min (levenshteinSpec (x :: xs) ys) (levenshteinSpec xs (y :: ys))) := by
  rw [levenshteinSpec]

theorem levenshteinSpec_le_max :
    ∀ n xs ys, xs.length + ys.length ≤ n →
      levenshteinSpec xs ys ≤ max xs.length ys.length := by
  intro n
  induction n with
  | zero =>
    intro xs ys h
    match xs, ys with
    | [], [] => simp [levenshteinSpec_nil_left]
    | x :: xs, _ => simp at h
    | [], y :: ys => simp at h
  | succ n ih =>
    intro xs ys h
    match xs, ys with
    | [], ys => simp [levenshteinSpec_nil_left]
    | x :: xs, [] => simp [levenshteinSpec_nil_right]
    | x :: xs, y :: ys =>
      rw [levenshteinSpec_cons_cons]
      have h1 := ih xs ys (by simp at h ⊢; omega)
      have h2 := ih (x :: xs) ys (by simp at h ⊢; omega)
      have h3 := ih xs (y :: ys) (by simp at h ⊢; omega)
      simp only [List.length_cons] at h1 h2 h3 ⊢
      split <;> omega

theorem levenshteinSpec_comm :
    ∀ n xs ys, xs.length + ys.length ≤ n →
      levenshteinSpec xs ys = levenshteinSpec ys xs := by
  intro n
  induction n with
  | zero =>
    intro xs ys h
    match xs, ys with
    | [], [] => rfl
    | x :: xs, _ => simp at h
    | [], y :: ys => simp at h
  | succ n ih =>
    intro xs ys h
    match xs, ys with
    | [], ys => simp [levenshteinSpec_nil_left, levenshteinSpec_nil_right]
    | x :: xs, [] => simp [levenshteinSpec_nil_left, levenshteinSpec_nil_right]
    | x :: xs, y :: ys =>
      rw [levenshteinSpec_cons_cons, levenshteinSpec_cons_cons]
      have h1 := ih xs ys (by simp at h ⊢; omega)
      have h2 := ih (x :: xs) ys (by simp at h ⊢; omega)
      have h3 := ih xs (y :: ys) (by simp at h ⊢; omega)
      rw [h1, h2, h3]
      by_cases hxy : x = y
      · rw [if_pos hxy, if_pos hxy.symm]
      · rw [if_neg hxy, if_neg fun hyx => hxy hyx.symm]
        omega

theorem levenshteinSpec_one_one (x y : Char) :
    levenshteinSpec [x] [y] = if x = y then 0 else 1 := by
  rw [levenshteinSpec_cons_cons]
  by_cases hxy : x = y
  · simp [hxy, levenshteinSpec_nil_left]
  · simp [hxy, levenshteinSpec_nil_left, levenshteinSpec_nil_right]

/-- The textbook recursion may equally be read off at the far end of the two
strings: the defining recurrence also holds for appended last characters. -/
theorem levenshteinSpec_snoc (x y : Char) :
    ∀ n xs ys, xs.length + ys.length ≤ n →
      levenshteinSpec (xs ++ [x]) (ys ++ [y]) =
        if x = y then levenshteinSpec xs ys
        else
          1 + min (levenshteinSpec xs ys)
              (min (levenshteinSpec (xs ++ [x]) ys) (levenshteinSpec xs (ys ++ [y]))) := by
  intro n
  induction n with
  | zero =>
    intro xs ys h
    match xs, ys with
    | [], [] =>
      simp only [List.nil_append]
      rw [levenshteinSpec_one_one]
      by_cases hxy : x = y
      · simp [hxy, levenshteinSpec_nil_left]
      · simp [hxy, levenshteinSpec_nil_left, levenshteinSpec_nil_right]
    | x' :: xs, ys => simp at h
    | [], y' :: ys => simp at h
  | succ n ih =>
    intro xs ys h
    match xs, ys with
    | [], [] =>
      simp only [List.nil_append]
      rw [levenshteinSpec_one_one]
      by_cases hxy : x = y
      · simp [hxy, levenshteinSpec_nil_left]
      · simp [hxy, levenshteinSpec_nil_left, levenshteinSpec_nil_right]
    | [], y' :: ys' =>
      simp only [List.nil_append, List.cons_append]
      rw [levenshteinSpec_cons_cons x y' [] (ys' ++ [y])]
      have H := ih [] ys' (by simp at h ⊢; omega)
      simp only [List.nil_append] at H
      rw [H, levenshteinSpec_cons_cons x y' [] ys']
      simp only [levenshteinSpec_nil_left, List.length_append, List.length_cons,
        List.length_nil]
      split_ifs <;> omega
    | x' :: xs', [] =>
      simp only [List.nil_append, List.cons_append]
      rw [levenshteinSpec_cons_cons x' y (xs' ++ [x]) []]
      have H := ih xs' [] (by simp at h ⊢; omega)
      simp only [List.nil_append] at H
      rw [H, levenshteinSpec_cons_cons x' y xs' []]
      simp only [levenshteinSpec_nil_right, List.length_append, List.length_cons,
        List.length_nil]
      split_ifs <;> omega
    | x' :: xs', y' :: ys' =>
      simp only [List.cons_append]
      rw [levenshteinSpec_cons_cons x' y' (xs' ++ [x]) (ys' ++ [y])]
      have H1 := ih xs' ys' (by simp at h ⊢; omega)
      have H2 := ih (x' :: xs') ys' (by simp at h ⊢; omega)
      have H3 := ih xs' (y' :: ys') (by simp at h ⊢; omega)
      simp only [List.cons_append] at H2 H3
      rw [H1, H2, H3, levenshteinSpec_cons_cons x' y' xs' ys',
        levenshteinSpec_cons_cons x' y' (xs' ++ [x]) ys',
        levenshteinSpec_cons_cons x' y' xs' (ys' ++ [y])]
      split_ifs
      · rfl
      · rfl
      · rfl
      · simp only [min_add_add_left]
        ac_rfl

/-- Levenshtein distance is invariant under reversing both strings. -/
theorem levenshteinSpec_reverse :
    ∀ n xs ys, xs.length + ys.length ≤ n →
      levenshteinSpec xs.reverse ys.reverse = levenshteinSpec xs ys := by
  intro n
  induction n with
  | zero =>
    intro xs ys h
    match xs, ys with
    | [], [] => rfl
    | x' :: xs, ys => simp at h
    | [], y' :: ys => simp at h
  | succ n ih =>
    intro xs ys h
    match xs, ys with
    | [], ys => simp [levenshteinSpec_nil_left]
    | x' :: xs', [] => simp [levenshteinSpec_nil_right]
    | x' :: xs', y' :: ys' =>
      simp only [List.reverse_cons]
      rw [levenshteinSpec_snoc x' y' (xs'.reverse.length + ys'.reverse.length)
        xs'.reverse ys'.reverse (le_refl _)]
      have H1 := ih xs' ys' (by simp at h ⊢; omega)
      have H2 := ih (x' :: xs') ys' (by simp at h ⊢; omega)
      have H3 := ih xs' (y' :: ys') (by simp at h ⊢; omega)
      simp only [List.reverse_cons] at H2 H3
      rw [H1, H2, H3, levenshteinSpec_cons_cons x' y' xs' ys']

/-- The table of `levenshteinDistance` holds, at `(i, j)`, the textbook
distance between the reversed `j`-prefix of `a` and the reversed `i`-prefix
of `b`. -/
theorem levMat_eq_spec (a b : List Char) :
    ∀ n i j, i + j ≤ n → i ≤ b.length → j ≤ a.length →
      levMat a b i j = levenshteinSpec ((a.take j).reverse) ((b.take i).reverse) := by
  intro n
  induction n with
  | zero =>
    intro i j hn _ _
    match i, j with
    | 0, 0 => simp [levMat_zero_left, levenshteinSpec_nil_left]
    | i + 1, j => omega
    | 0, j + 1 => omega
  | succ n ih =>
    intro i j hn hi hj
    match i, j with
    | 0, j =>
      rw [levMat_zero_left]
      simp [levenshteinSpec_nil_right, List.length_take, Nat.min_eq_left hj]
    | i + 1, 0 =>
      rw [levMat_succ_zero]
      simp [levenshteinSpec_nil_left, List.length_take, Nat.min_eq_left hi]
    | i + 1, j + 1 =>
      have hilt : i < b.length := by omega
      have hjlt : j < a.length := by omega
      have ta : (a.take (j + 1)).reverse = a[j] :: (a.take j).reverse := by
        rw [List.take_succ, List.getElem?_eq_getElem hjlt]
        simp
      have tb : (b.take (i + 1)).reverse = b[i] :: (b.take i).reverse := by
        rw [List.take_succ, List.getElem?_eq_getElem hilt]
        simp
      rw [levMat_succ_succ, ta, tb, levenshteinSpec_cons_cons,
        List.getD_eq_getElem a ' ' hjlt, List.getD_eq_getElem b ' ' hilt,
        ih i j (by omega) (by omega) (by omega),
        ih (i + 1) j (by omega) (by omega) (by omega),
        ih i (j + 1) (by omega) (by omega) (by omega), ta, tb]
      by_cases hc : b[i] = a[j]
      · rw [if_pos hc, if_pos hc.symm]
      · rw [if_neg hc, if_neg fun hca => hc hca.symm]
        omega

/-- The table computed by `levenshteinDistance` is the Levenshtein edit
distance of its two arguments. -/
theorem levenshteinDistance_eq_spec (a b : List Char) :
    levenshteinDistance a b = levenshteinSpec a b := by
  rw [levenshteinDistance,
    levMat_eq_spec a b (b.length + a.length) b.length a.length (le_refl _) (le_refl _)
      (le_refl _)]
  simp only [List.take_length]
  exact levenshteinSpec_reverse (a.length + b.length) a b (le_refl _)

theorem levenshteinDistance_le_max (a b : List Char) :
    levenshteinDistance a b ≤ max a.length b.length := by
  rw [levenshteinDistance_eq_spec]
  exact levenshteinSpec_le_max (a.length + b.length) a b (le_refl _)

theorem levenshteinDistance_comm (a b : List Char) :
    levenshteinDistance a b = levenshteinDistance b a := by
  rw [levenshteinDistance_eq_spec, levenshteinDistance_eq_spec]
  exact levenshteinSpec_comm (a.length + b.length) a b (le_refl _)

/-! ## Lemmas about the normalizer -/

theorem mem_collapseWs :
    ∀ (l : List Char) (c : Char), c ∈ collapseWs l →
      c = ' ' ∨ (c ∈ l ∧ isJsWs c = false) := by
  intro l
  induction l with
  | nil => intro c hc; simp [collapseWs] at hc
  | cons a rest ih =>
    cases rest with
    | nil =>
      intro c hc
      by_cases ha : isJsWs a = true
      · simp [collapseWs, ha] at hc
        exact Or.inl hc
      · simp [collapseWs, ha] at hc
        exact Or.inr ⟨by simp [hc], by rw [hc]; simpa using ha⟩
    | cons d rest' =>
      intro c hc
      by_cases ha : isJsWs a = true
      · by_cases hd : isJsWs d = true
        · rw [show collapseWs (a :: d :: rest') = collapseWs (d :: rest') from by
            simp [collapseWs, ha, hd]] at hc
          rcases ih c hc with h | ⟨hm, hw⟩
          · exact Or.inl h
          · exact Or.inr ⟨List.mem_cons_of_mem a hm, hw⟩
        · rw [show collapseWs (a :: d :: rest') = ' ' :: collapseWs (d :: rest') from by
            simp [collapseWs, ha, hd]] at hc
          rcases List.mem_cons.mp hc with h | h
          · exact Or.inl h
          · rcases ih c h with h' | ⟨hm, hw⟩
            · exact Or.inl h'
            · exact Or.inr ⟨List.mem_cons_of_mem a hm, hw⟩
      · rw [show collapseWs (a :: d :: rest') = a :: collapseWs (d :: rest') from by
          simp [collapseWs, ha]] at hc
        rcases List.mem_cons.mp hc with h | h
        · exact Or.inr ⟨by simp [h], by rw [h]; simpa using ha⟩
        · rcases ih c h with h' | ⟨hm, hw⟩
          · exact Or.inl h'
          · exact Or.inr ⟨List.mem_cons_of_mem a hm, hw⟩

theorem head?_collapseWs (d : Char) (rest : List Char) (hd : isJsWs d = false) :
    (collapseWs (d :: rest)).head? = some d := by
  cases rest with
  | nil => simp [collapseWs, hd]
  | cons e rest' => simp [collapseWs, hd]

theorem chain'_collapseWs : ∀ l : List Char, List.Chain' wsSep (collapseWs l) := by
  intro l
  induction l with
  | nil => simp [collapseWs]
  | cons a rest ih =>
    cases rest with
    | nil =>
      by_cases ha : isJsWs a = true <;> simp [collapseWs, ha]
    | cons d rest' =>
      by_cases ha : isJsWs a = true
      · by_cases hd : isJsWs d = true
        · rw [show collapseWs (a :: d :: rest') = collapseWs (d :: rest') from by
            simp [collapseWs, ha, hd]]
          exact ih
        · rw [show collapseWs (a :: d :: rest') = ' ' :: collapseWs (d :: rest') from by
            simp [collapseWs, ha, hd]]
          rw [List.chain'_cons']
          refine ⟨?_, ih⟩
          intro y hy
          rw [head?_collapseWs d rest' (by simpa using hd), Option.mem_def,
            Option.some_inj] at hy
          subst hy
          exact fun hcon => by simp [hd] at hcon
      · rw [show collapseWs (a :: d :: rest') = a :: collapseWs (d :: rest') from by
          simp [collapseWs, ha]]
        rw [List.chain'_cons']
        refine ⟨?_, ih⟩
        intro y _
        exact fun hcon => by simp [ha] at hcon

theorem head?_dropWhile_not (p : Char → Bool) :
    ∀ (l : List Char) (c : Char), (List.dropWhile p l).head? = some c → p c = false := by
  intro l
  induction l with
  | nil => intro c h; simp [List.dropWhile] at h
  | cons a rest ih =>
    intro c h
    by_cases ha : p a = true
    · rw [List.dropWhile_cons, if_pos ha] at h
      exact ih c h
    · rw [List.dropWhile_cons, if_neg ha] at h
      simp only [List.head?_cons, Option.some_inj] at h
      subst h
      simpa using ha

theorem getLast?_dropWhile (p : Char → Bool) (l : List Char)
    (h : List.dropWhile p l ≠ []) :
    (List.dropWhile p l).getLast? = l.getLast? := by
  obtain ⟨t, ht⟩ := List.dropWhile_suffix p (l := l)
  conv_rhs => rw [← ht]
  rw [List.getLast?_append]
  cases hg : (List.dropWhile p l).getLast? with
  | none => exact absurd (List.getLast?_eq_none_iff.mp hg) h
  | some v => rfl

theorem mem_jsTrim (l : List Char) (c : Char) (h : c ∈ jsTrim l) : c ∈ l := by
  rw [jsTrim] at h
  have h1 := (List.dropWhile_suffix isJsWs).subset (List.mem_reverse.mp h)
  have h2 := (List.dropWhile_suffix isJsWs).subset (List.mem_reverse.mp h1)
  exact h2

theorem chain'_jsTrim (l : List Char) (h : List.Chain' wsSep l) :
    List.Chain' wsSep (jsTrim l) := by
  have symmImp : ∀ u : List Char, List.Chain' wsSep u → List.Chain' wsSep u.reverse := by
    intro u hu
    rw [List.chain'_reverse]
    exact hu.imp fun a b hab hcon => hab ⟨hcon.2, hcon.1⟩
  have drop : ∀ u : List Char, List.Chain' wsSep u →
      List.Chain' wsSep (u.dropWhile isJsWs) := by
    intro u hu
    obtain ⟨t, ht⟩ := List.dropWhile_suffix isJsWs (l := u)
    rw [← ht] at hu
    exact (List.chain'_append.mp hu).2.1
  exact symmImp _ (drop _ (symmImp _ (drop _ h)))

theorem head?_jsTrim (l : List Char) (c : Char) (h : (jsTrim l).head? = some c) :
    isJsWs c = false := by
  rw [jsTrim, List.head?_reverse] at h
  have hne : List.dropWhile isJsWs (l.dropWhile isJsWs).reverse ≠ [] := by
    intro h0
    rw [h0] at h
    simp at h
  rw [getLast?_dropWhile _ _ hne, List.getLast?_reverse] at h
  exact head?_dropWhile_not isJsWs l c h

theorem getLast?_jsTrim (l : List Char) (c : Char) (h : (jsTrim l).getLast? = some c) :
    isJsWs c = false := by
  rw [jsTrim, List.getLast?_reverse] at h
  exact head?_dropWhile_not isJsWs _ c h

theorem collapseWs_eq_self :
    ∀ l : List Char, (∀ c ∈ l, isJsWs c = true → c = ' ') → List.Chain' wsSep l →
      collapseWs l = l := by
  intro l
  induction l with
  | nil => intro _ _; rfl
  | cons a rest ih =>
    cases rest with
    | nil =>
      intro hmem _
      by_cases ha : isJsWs a = true
      · have := hmem a (List.mem_cons_self a []) ha
        simp [collapseWs, ha, this]
      · simp [collapseWs, ha]
    | cons d rest' =>
      intro hmem hchain
      obtain ⟨hrel, htail⟩ := List.chain'_cons.mp hchain
      by_cases ha : isJsWs a = true
      · have hd : isJsWs d = false := by
          rcases Bool.eq_false_or_eq_true (isJsWs d) with h | h
          · exact absurd ⟨ha, h⟩ hrel
          · exact h
        have ha' : a = ' ' := hmem a (List.mem_cons_self a _) ha
        rw [show collapseWs (a :: d :: rest') = ' ' :: collapseWs (d :: rest') from by
          simp [collapseWs, ha, hd]]
        rw [ih (fun c hc h => hmem c (List.mem_cons_of_mem a hc) h) htail, ha']
      · rw [show collapseWs (a :: d :: rest') = a :: collapseWs (d :: rest') from by
          simp [collapseWs, ha]]
        rw [ih (fun c hc h => hmem c (List.mem_cons_of_mem a hc) h) htail]

theorem dropWhile_eq_self_of_head (p : Char → Bool) (l : List Char)
    (h : ∀ c, l.head? = some c → p c = false) : l.dropWhile p = l := by
  cases l with
  | nil => rfl
  | cons a rest =>
    rw [List.dropWhile_cons, if_neg]
    rw [h a rfl]
    simp

theorem jsTrim_eq_self (l : List Char)
    (h1 : ∀ c, l.head? = some c → isJsWs c = false)
    (h2 : ∀ c, l.getLast? = some c → isJsWs c = false) : jsTrim l = l := by
  rw [jsTrim, dropWhile_eq_self_of_head _ _ h1,
    dropWhile_eq_self_of_head _ _ fun c hc =>
      h2 c (by rw [List.head?_reverse] at hc; exact hc),
    List.reverse_reverse]

theorem map_id_on (f : Char → Char) :
    ∀ l : List Char, (∀ c ∈ l, f c = c) → l.map f = l := by
  intro l
  induction l with
  | nil => intro _; rfl
  | cons a rest ih =>
    intro h
    rw [List.map_cons, h a (List.mem_cons_self a rest),
      ih fun c hc => h c (List.mem_cons_of_mem a hc)]

theorem mapSingleQuotes_id (c : Char) : mapSingleQuotes c = c := by
  rw [mapSingleQuotes]
  split
  · next h =>
    have h' : c.toNat = 39 := by simpa using h
    rw [← h']
    exact Char.ofNat_toNat c
  · rfl

theorem mapDoubleQuotes_id (c : Char) : mapDoubleQuotes c = c := by
  rw [mapDoubleQuotes]
  split
  · next h =>
    have h' : c.toNat = 34 := by simpa using h
    rw [← h']
    exact Char.ofNat_toNat c
  · rfl

theorem mem_normalizeString (s : List Char) (c : Char) (hc : c ∈ normalizeString s) :
    c = ' ' ∨ isLowerAZ c = true ∨ isDigit09 c = true := by
  rw [normalizeString] at hc
  have h1 := mem_jsTrim _ c hc
  rcases mem_collapseWs _ c h1 with h | ⟨hmem, hws⟩
  · exact Or.inl h
  · have hk := (List.mem_filter.mp hmem).2
    rw [isKept, hws] at hk
    simp only [Bool.or_false, Bool.or_eq_true] at hk
    exact Or.inr hk

theorem chain'_normalizeString (s : List Char) :
    List.Chain' wsSep (normalizeString s) := by
  rw [normalizeString]
  exact chain'_jsTrim _ (chain'_collapseWs _)

theorem ws_normalizeString (s : List Char) (c : Char) (hc : c ∈ normalizeString s)
    (hw : isJsWs c = true) : c = ' ' := by
  rcases mem_normalizeString s c hc with h | h | h
  · exact h
  · rw [isLowerAZ] at h
    rw [isJsWs] at hw
    simp only [Bool.and_eq_true, Bool.or_eq_true, decide_eq_true_eq] at h hw
    omega
  · rw [isDigit09] at h
    rw [isJsWs] at hw
    simp only [Bool.and_eq_true, Bool.or_eq_true, decide_eq_true_eq] at h hw
    omega

theorem keptChar_fixed (c : Char)
    (h : c = ' ' ∨ isLowerAZ c = true ∨ isDigit09 c = true) :
    jsToLower c = c ∧ isKept c = true := by
  rcases h with h | h | h
  · subst h
    exact ⟨by decide, by decide⟩
  · have h' : 97 ≤ c.toNat ∧ c.toNat ≤ 122 := by simpa [isLowerAZ] using h
    constructor
    · rw [jsToLower, if_neg]
      simp only [Bool.and_eq_true, decide_eq_true_eq, not_and, not_le]
      omega
    · rw [isKept, h]
      simp
  · have h' : 48 ≤ c.toNat ∧ c.toNat ≤ 57 := by simpa [isDigit09] using h
    constructor
    · rw [jsToLower, if_neg]
      simp only [Bool.and_eq_true, decide_eq_true_eq, not_and, not_le]
      omega
    · rw [isKept, h]
      simp

/-- C8: `normalizeString` is idempotent: for every string `s`,
`normalizeString (normalizeString s) = normalizeString s`, where
`normalizeString` lowercases, canonicalizes the quote characters, strips
every character that is not a lowercase letter, digit or whitespace,
collapses whitespace runs to a single space, and trims. -/
theorem normalizeString_idem (s : List Char) :
    normalizeString (normalizeString s) = normalizeString s := by
  have hmem := mem_normalizeString s
  have hlow : (normalizeString s).map jsToLower = normalizeString s :=
    map_id_on _ _ fun c hc => (keptChar_fixed c (hmem c hc)).1
  have hq1 : (normalizeString s).map mapSingleQuotes = normalizeString s :=
    map_id_on _ _ fun c _ => mapSingleQuotes_id c
  have hq2 : (normalizeString s).map mapDoubleQuotes = normalizeString s :=
    map_id_on _ _ fun c _ => mapDoubleQuotes_id c
  have hfil : (normalizeString s).filter isKept = normalizeString s :=
    List.filter_eq_self.mpr fun c hc => (keptChar_fixed c (hmem c hc)).2
  have hcol : collapseWs (normalizeString s) = normalizeString s :=
    collapseWs_eq_self _ (fun c hc hw => ws_normalizeString s c hc hw)
      (chain'_normalizeString s)
  have htr : jsTrim (normalizeString s) = normalizeString s :=
    jsTrim_eq_self _ (fun c hc => head?_jsTrim _ c hc)
      (fun c hc => getLast?_jsTrim _ c hc)
  conv_lhs => rw [normalizeString]
  rw [hlow, hq1, hq2, hfil, hcol, htr]

/-- C1: `similarity(a, b)` normalizes both inputs; if the normalized forms
are identical it returns exactly 1 (including when both normalize to the
empty string); otherwise it returns
`1 - d / max(len(normA), len(normB))` where `d` is the Levenshtein edit
distance between the normalized strings with unit-cost substitution,
insertion and deletion; and the result always lies in `[0, 1]`. -/
theorem similarity_correct (a b : List Char) :
    (normalizeString a = normalizeString b → similarity a b = 1) ∧
    (normalizeString a ≠ normalizeString b →
      similarity a b =
        1 - (levenshteinSpec (normalizeString a) (normalizeString b) : ℚ) /
          ((max (normalizeString a).length (normalizeString b).length : ℕ) : ℚ)) ∧
    0 ≤ similarity a b ∧ similarity a b ≤ 1 := by
  have hsim : similarity a b =
      if normalizeString a = normalizeString b then 1
      else if max (normalizeString a).length (normalizeString b).length = 0 then 1
      else 1 - (levenshteinDistance (normalizeString a) (normalizeString b) : ℚ) /
        ((max (normalizeString a).length (normalizeString b).length : ℕ) : ℚ) := rfl
  by_cases h : normalizeString a = normalizeString b
  · have h1 : similarity a b = 1 := by rw [hsim, if_pos h]
    exact ⟨fun _ => h1, fun hcon => absurd h hcon, by rw [h1]; norm_num, by rw [h1]⟩
  · have hml : max (normalizeString a).length (normalizeString b).length ≠ 0 := by
      intro h0
      rw [Nat.max_eq_zero_iff, List.length_eq_zero, List.length_eq_zero] at h0
      exact h (h0.1.trans h0.2.symm)
    have h1 : similarity a b =
        1 - (levenshteinDistance (normalizeString a) (normalizeString b) : ℚ) /
          ((max (normalizeString a).length (normalizeString b).length : ℕ) : ℚ) := by
      rw [hsim, if_neg h, if_neg hml]
    have hd := levenshteinDistance_le_max (normalizeString a) (normalizeString b)
    have hdq : ((levenshteinDistance (normalizeString a) (normalizeString b) : ℚ)) ≤
        (((max (normalizeString a).length (normalizeString b).length : ℕ) : ℚ)) := by
      exact_mod_cast hd
    have hmq : (0 : ℚ) < ((max (normalizeString a).length (normalizeString b).length : ℕ) : ℚ) := by
      exact_mod_cast Nat.pos_of_ne_zero hml
    refine ⟨fun hcon => absurd hcon h, fun _ => ?_, ?_, ?_⟩
    · rw [h1, levenshteinDistance_eq_spec]
    · rw [h1]
      have := (div_le_one hmq).mpr hdq
      linarith
    · rw [h1]
      have : (0 : ℚ) ≤
          (levenshteinDistance (normalizeString a) (normalizeString b) : ℚ) /
            ((max (normalizeString a).length (normalizeString b).length : ℕ) : ℚ) :=
        div_nonneg (by positivity) (le_of_lt hmq)
      linarith

/-- Witness for C1: a concrete input taking the non-identical branch. -/
theorem similarity_correct_witness :
    normalizeString ['a'] ≠ normalizeString ['b'] ∧
    similarity ['a'] ['b'] =
      1 - (levenshteinSpec (normalizeString ['a']) (normalizeString ['b']) : ℚ) /
        ((max (normalizeString ['a']).length (normalizeString ['b']).length : ℕ) : ℚ) :=
  ⟨by decide, (similarity_correct ['a'] ['b']).2.1 (by decide)⟩

/-- C7: `similarity` is symmetric: `similarity(a, b) = similarity(b, a)` for
all strings, even though the Levenshtein table indexes `b` as rows and `a`
as columns rather than being literally transposed. -/
theorem similarity_symm (a b : List Char) : similarity a b = similarity b a := by
  have e1 : similarity a b =
      if normalizeString a = normalizeString b then 1
      else if max (normalizeString a).length (normalizeString b).length = 0 then 1
      else 1 - (levenshteinDistance (normalizeString a) (normalizeString b) : ℚ) /
        ((max (normalizeString a).length (normalizeString b).length : ℕ) : ℚ) := rfl
  have e2 : similarity b a =
      if normalizeString b = normalizeString a then 1
      else if max (normalizeString b).length (normalizeString a).length = 0 then 1
      else 1 - (levenshteinDistance (normalizeString b) (normalizeString a) : ℚ) /
        ((max (normalizeString b).length (normalizeString a).length : ℕ) : ℚ) := rfl
  by_cases h : normalizeString a = normalizeString b
  · rw [e1, e2, if_pos h, if_pos h.symm]
  · have h' : ¬ normalizeString b = normalizeString a := fun hh => h hh.symm
    rw [e1, e2, if_neg h, if_neg h',
      Nat.max_comm (normalizeString b).length (normalizeString a).length,
      levenshteinDistance_comm (normalizeString b) (normalizeString a)]

/-- C4: for every round state and hint kind, `revealHint(kind)` is a no-op
when the kind is already revealed or the round is already guessed; otherwise
it subtracts the hint's fixed cost from the remaining points, floors the
result at 0, adds the kind to the revealed set, and changes nothing else. -/
theorem revealHint_transition (st : GameState) (kind : HintType) :
    ((kind ∈ st.revealed ∨ st.guessed = true) → revealHint st kind = st) ∧
    (¬(kind ∈ st.revealed ∨ st.guessed = true) →
      (revealHint st kind).roundPoints = max 0 (st.roundPoints - hintCost kind) ∧
      (revealHint st kind).revealed = kind :: st.revealed ∧
      (revealHint st kind).scene = st.scene ∧
      (revealHint st kind).totalPoints = st.totalPoints ∧
      (revealHint st kind).roundsPlayed = st.roundsPlayed ∧
      (revealHint st kind).guessed = st.guessed ∧
      (revealHint st kind).won = st.won ∧
      (revealHint st kind).seasonRange = st.seasonRange) := by
  constructor
  · intro h
    rw [revealHint, if_pos h]
  · intro h
    rw [revealHint, if_neg h]
    exact ⟨rfl, rfl, rfl, rfl, rfl, rfl, rfl, rfl⟩

/-- Witness for C4: from 100 points, revealing Season (cost 20) then Image
(cost 30) leaves 50 points, and revealing Season again is a no-op. -/
theorem revealHint_transition_witness :
    exState4'.roundPoints = 50 ∧ revealHint exState4' HintType.season = exState4' :=
  ⟨by decide, (revealHint_transition exState4' HintType.season).1 (by decide)⟩

/-- C6: the claim asserts the produced SeasonRange always satisfies
`min ≤ max` with both within 1..20; the code fails this for the inputs
"100"/"100", producing `{min := 100, max := 20}`. -/
theorem getSeasonRange_failing :
    getSeasonRange ['1', '0', '0'] ['1', '0', '0'] = { min := 100, max := 20 } ∧
    ¬((getSeasonRange ['1', '0', '0'] ['1', '0', '0']).min ≤
      (getSeasonRange ['1', '0', '0'] ['1', '0', '0']).max) := by decide

/-- C5 counterexample: a scene satisfying every quote-content condition of
the claim's acceptance half (exactly `minQuoteWords` words, no leading `[`,
bracketed ratio ≤ 50%) that the validator nevertheless rejects, because its
season 0 is outside the range 1..9 — the acceptance half as stated ignores
the season restriction its own rejection half imposes. -/
theorem isValidQuote_accept_counterexample :
    wordCount (getQuoteText exSceneBad) = minQuoteWords ∧
    startsWithLBracket (jsTrim (getQuoteText exSceneBad)) = false ∧
    2 * bracketedLength (getQuoteText exSceneBad) ≤ (getQuoteText exSceneBad).length ∧
    isValidQuote exRange exSceneBad = false := by decide

/-- C5 (amended): a scene with season outside the range is always rejected
regardless of other fields; and every scene whose season lies within the
range, whose quote is exactly `minQuoteWords` whitespace-separated words,
whose trimmed quote does not start with `[`, and whose bracketed spans
account for at most 50% of the quote length, is accepted. -/
theorem isValidQuote_spec (range : SeasonRange) (scene : Scene) :
    ((scene.season < range.min ∨ range.max < scene.season) →
      isValidQuote range scene = false) ∧
    (range.min ≤ scene.season → scene.season ≤ range.max →
      wordCount (getQuoteText scene) = minQuoteWords →
      startsWithLBracket (jsTrim (getQuoteText scene)) = false →
      2 * bracketedLength (getQuoteText scene) ≤ (getQuoteText scene).length →
      isValidQuote range scene = true) := by
  constructor
  · intro h
    rw [isValidQuote, if_pos h]
  · intro h1 h2 hwc hsb hbr
    rw [isValidQuote, if_neg (by omega)]
    have hq : getQuoteText scene ≠ [] := by
      intro h0
      rw [h0] at hwc
      exact absurd hwc (by decide)
    rw [if_neg hq, if_neg (by rw [hwc]; exact lt_irrefl _),
      if_neg (by rw [hsb]; simp)]
    by_cases h0 : 0 < bracketedLength (getQuoteText scene)
    · rw [if_pos h0, if_neg (by omega)]
    · rw [if_neg h0]

/-- Witness for C5: a concrete in-range scene with a five-word quote is
accepted. -/
theorem isValidQuote_spec_witness : isValidQuote exRange exSceneGood = true :=
  (isValidQuote_spec exRange exSceneGood).2 (by decide) (by decide) (by decide)
    (by decide) (by decide)

theorem getValidSceneAux_all_bad (range : SeasonRange) (fetch : Nat → Scene) :
    ∀ rem att, (∀ i, att ≤ i → i < att + rem → isValidQuote range (fetch i) = false) →
      getValidSceneAux range fetch rem att = (none, rem) := by
  intro rem
  induction rem with
  | zero => intro att _; rfl
  | succ rem ih =>
    intro att h
    have hbad := h att (le_refl _) (by omega)
    simp only [getValidSceneAux, hbad, Bool.false_eq_true, if_false,
      ih (att + 1) fun i h1 h2 => h i (by omega) (by omega)]

theorem getValidSceneAux_found (range : SeasonRange) (fetch : Nat → Scene) :
    ∀ rem att k, att ≤ k → k < att + rem → isValidQuote range (fetch k) = true →
      (∀ i, att ≤ i → i < k → isValidQuote range (fetch i) = false) →
      getValidSceneAux range fetch rem att = (some (fetch k), k + 1 - att) := by
  intro rem
  induction rem with
  | zero => intro att k h1 h2 _ _; omega
  | succ rem ih =>
    intro att k h1 h2 hk hbad
    by_cases hak : att = k
    · subst hak
      simp only [getValidSceneAux, hk, if_true]
      rw [Nat.add_sub_cancel_left]
    · have haklt : att < k := lt_of_le_of_ne h1 hak
      have hbad_att := hbad att (le_refl _) haklt
      simp only [getValidSceneAux, hbad_att, Bool.false_eq_true, if_false,
        ih (att + 1) k (by omega) (by omega) hk fun i hi1 hi2 => hbad i (by omega) hi2]
      simp only [Prod.mk.injEq, true_and]
      omega

theorem getValidSceneAux_congr (range : SeasonRange) (f g : Nat → Scene) :
    ∀ rem att, (∀ i, att ≤ i → i < att + rem → f i = g i) →
      getValidSceneAux range f rem att = getValidSceneAux range g rem att := by
  intro rem
  induction rem with
  | zero => intro att _; rfl
  | succ rem ih =>
    intro att h
    have hfg := h att (le_refl _) (by omega)
    simp only [getValidSceneAux, hfg,
      ih (att + 1) fun i hi1 hi2 => h i (by omega) (by omega)]

/-- C3: the acquisition loop fetches one candidate at a time, returns the
first accepted scene immediately (after `k + 1` fetches when the first
acceptance is at index `k`); if every candidate is rejected it performs
exactly 50 fetches and fails with the no-valid-scene condition; and its
outcome never depends on any fetch beyond the 50th. -/
theorem getValidScene_attempts :
    (∀ (range : SeasonRange) (fetch : Nat → Scene),
      (∀ i, i < maxAttempts → isValidQuote range (fetch i) = false) →
      getValidScene range fetch = (none, maxAttempts)) ∧
    (∀ (range : SeasonRange) (fetch : Nat → Scene) (k : Nat),
      k < maxAttempts → isValidQuote range (fetch k) = true →
      (∀ i, i < k → isValidQuote range (fetch i) = false) →
      getValidScene range fetch = (some (fetch k), k + 1)) ∧
    (∀ (range : SeasonRange) (f g : Nat → Scene),
      (∀ i, i < maxAttempts → f i = g i) →
      getValidScene range f = getValidScene range g) := by
  refine ⟨?_, ?_, ?_⟩
  · intro range fetch h
    exact getValidSceneAux_all_bad range fetch maxAttempts 0
      fun i _ h2 => h i (by omega)
  · intro range fetch k hk hv hbad
    have h := getValidSceneAux_found range fetch maxAttempts 0 k (by omega) (by omega)
      hv fun i _ h2 => hbad i h2
    rw [getValidScene, h, Nat.sub_zero]
  · intro range f g h
    exact getValidSceneAux_congr range f g maxAttempts 0 fun i _ h2 => h i (by omega)

/-- Witness for C3: a fetch stream of permanently invalid scenes exhausts
exactly the 50 attempts and fails. -/
theorem getValidScene_attempts_witness :
    getValidScene exRange (fun _ => exSceneBad) = (none, maxAttempts) :=
  getValidScene_attempts.1 exRange (fun _ => exSceneBad)
    fun i _ => (by decide : isValidQuote exRange exSceneBad = false)

/-- C2: for every guess submission made while the round is not yet guessed
and the trimmed guess text is nonempty, the final round points equal
`(isCorrect ? pointsBeforeGuess : 0)` plus the fixed season bonus (iff a
truthy structured season guess equals the scene's season) plus the fixed
episode bonus (iff a truthy structured episode guess equals the scene's
episode number); the structured bonuses are awarded independently of title
correctness, with `isCorrect` meaning
`similarity(guess, title) ≥ similarityThreshold`. -/
theorem submitGuess_final_points (st : GameState) (gi si ei : List Char)
    (hg : st.guessed = false) (ht : jsTrim gi ≠ []) :
    ((submitGuess st gi si ei).1).roundPoints =
      (if similarityThreshold ≤ similarity (jsTrim gi) st.scene.title
        then st.roundPoints else 0)
      + (if structuredHit (jsParseInt si) st.scene.season then seasonBonusPoints else 0)
      + (if structuredHit (jsParseInt ei) st.scene.episodeNumber
          then episodeBonusPoints else 0) := by
  simp only [submitGuess, hg, Bool.false_eq_true, if_false, ht, ite_false, checkAnswer,
    decide_eq_true_eq]
  rcases hsi : jsParseInt si with _ | n <;> rcases hei : jsParseInt ei with _ | m <;>
    simp only [structuredHit, Bool.false_eq_true, if_false, decide_eq_true_eq] <;>
    split_ifs <;> omega

/-- Witness for C2: on a round worth 40 points, a lost title guess with a
correct structured season guess (bonus 25) yields exactly 25 final round
points. -/
theorem submitGuess_final_points_witness :
    jsTrim ['z'] ≠ [] ∧ ((submitGuess exState2 ['z'] ['3'] []).1).roundPoints = 25 := by
  refine ⟨by decide, ?_⟩
  rw [submitGuess_final_points exState2 ['z'] ['3'] [] rfl (by decide)]
  have e : similarity (jsTrim ['z']) exState2.scene.title =
      if normalizeString (jsTrim ['z']) = normalizeString exState2.scene.title then 1
      else if max (normalizeString (jsTrim ['z'])).length
          (normalizeString exState2.scene.title).length = 0 then 1
      else 1 - (levenshteinDistance (normalizeString (jsTrim ['z']))
          (normalizeString exState2.scene.title) : ℚ) /
        ((max (normalizeString (jsTrim ['z'])).length
          (normalizeString exState2.scene.title).length : ℕ) : ℚ) := rfl
  have h1 : normalizeString (jsTrim ['z']) = ['z'] := by decide
  have h2 : normalizeString exState2.scene.title = ['a', 'b', 'c', 'd'] := by decide
  rw [e, h1, h2,
    if_neg (show ¬(['z'] = ['a', 'b', 'c', 'd']) from by decide),
    if_neg (show ¬(max (['z'] : List Char).length
      (['a', 'b', 'c', 'd'] : List Char).length = 0) from by decide)]
  have hval : ¬ (similarityThreshold ≤
      1 - (levenshteinDistance ['z'] ['a', 'b', 'c', 'd'] : ℚ) /
        ((max (['z'] : List Char).length (['a', 'b', 'c', 'd'] : List Char).length : ℕ) :
          ℚ)) := by
    rw [show levenshteinDistance ['z'] ['a', 'b', 'c', 'd'] = 4 from by decide,
      show max (['z'] : List Char).length (['a', 'b', 'c', 'd'] : List Char).length = 4
        from by decide]
    norm_num [similarityThreshold]
  rw [if_neg hval,
    if_pos (show structuredHit (jsParseInt ['3']) exState2.scene.season = true
      from by decide),
    if_neg (show ¬(structuredHit (jsParseInt []) exState2.scene.episodeNumber = true)
      from by decide)]
  decide

/-- C9: the session average `totalPoints / roundsPlayed` is only computed in
the result view produced by a successful guess submission, which has already
incremented `roundsPlayed`; its divisor is therefore positive and the
zero-divisor case is unreachable (the no-op submission paths produce no
result view at all). -/
theorem sessionAvg_positive (st : GameState) (gi si ei : List Char) :
    ((st.guessed = true ∨ jsTrim gi = []) → (submitGuess st gi si ei).2 = none) ∧
    (st.guessed = false → jsTrim gi ≠ [] →
      ∃ v : ResultView, (submitGuess st gi si ei).2 = some v ∧
        v.sessionRounds = st.roundsPlayed + 1 ∧ 0 < v.sessionRounds ∧
        (v.sessionRounds : ℚ) ≠ 0 ∧
        v.sessionAvg = (v.sessionTotal : ℚ) / (v.sessionRounds : ℚ)) := by
  constructor
  · intro h
    rcases h with h | h
    · simp [submitGuess, h]
    · rcases Bool.eq_false_or_eq_true st.guessed with hg | hg <;>
        simp [submitGuess, h, hg]
  · intro hg ht
    simp only [submitGuess, hg, Bool.false_eq_true, if_false, ht, ite_false]
    refine ⟨_, rfl, rfl, Nat.succ_pos _, ?_, rfl⟩
    exact Nat.cast_ne_zero.mpr (Nat.succ_ne_zero _)

/-- Witness for C9: a concrete successful submission from a fresh session
yields a view with `sessionRounds = 1 > 0`. -/
theorem sessionAvg_positive_witness :
    ∃ v : ResultView, (submitGuess exState9 ['a'] [] []).2 = some v ∧
      v.sessionRounds = exState9.roundsPlayed + 1 ∧ 0 < v.sessionRounds ∧
      (v.sessionRounds : ℚ) ≠ 0 ∧
      v.sessionAvg = (v.sessionTotal : ℚ) / (v.sessionRounds : ℚ) :=
  (sessionAvg_positive exState9 ['a'] [] []).2 rfl (by decide)

/-- C10: a structured season or episode guess whose input is empty,
non-numeric, or parses to 0 is treated exactly as if it were not supplied:
the submission result is the same as with an empty input, and with no
supplied structured guesses no bonus is added and no bonus note (success or
mismatch) is produced, because the supplied-guess test is the truthiness of
the parsed integer. -/
theorem structuredGuess_falsy (st : GameState) (gi si ei : List Char)
    (hg : st.guessed = false) (ht : jsTrim gi ≠ []) :
    ((jsParseInt si = none ∨ jsParseInt si = some 0) →
      submitGuess st gi si ei = submitGuess st gi [] ei) ∧
    ((jsParseInt ei = none ∨ jsParseInt ei = some 0) →
      submitGuess st gi si ei = submitGuess st gi si []) ∧
    (∀ v : ResultView, (submitGuess st gi [] []).2 = some v →
      v.bonusNotes = [] ∧
      ((submitGuess st gi [] []).1).roundPoints =
        (if similarityThreshold ≤ similarity (jsTrim gi) st.scene.title
          then st.roundPoints else 0)) := by
  have hnil : jsParseInt ([] : List Char) = none := rfl
  refine ⟨?_, ?_, ?_⟩
  · intro h
    rcases h with h | h <;> simp [submitGuess, h, hnil, hg, ht]
  · intro h
    rcases h with h | h <;> simp [submitGuess, h, hnil, hg, ht]
  · intro v hv
    simp only [submitGuess, hg, Bool.false_eq_true, if_false, ht, ite_false, hnil] at hv
    obtain rfl := Option.some_inj.mp hv
    refine ⟨rfl, ?_⟩
    simp only [submitGuess, hg, Bool.false_eq_true, if_false, ht, ite_false, hnil,
      checkAnswer, decide_eq_true_eq, add_zero]

/-- Witness for C10: a non-numeric season input "x" behaves exactly as an
empty season input. -/
theorem structuredGuess_falsy_witness :
    submitGuess exState10 ['a'] ['x'] ['3'] = submitGuess exState10 ['a'] [] ['3'] :=
  (structuredGuess_falsy exState10 ['a'] ['x'] ['3'] rfl (by decide)).1
    (Or.inl (by decide))
